import Mathlib

/-!
Shallow embedding of the content-based recommender in
`app/services/recommender.py` (Flask wellness-resource recommender).

Modelling conventions:
* A pandas `DataFrame` is a list of named columns (name, is_string_dtype
  flag) plus a list of rows; a row is an association list from column name
  to an optional string cell (`none` = NaN/null).  Cell payloads beyond
  "null or string" are below the granularity any claim needs.
* numpy float64 arithmetic is modelled exactly over `ℚ`.
* File-system effects are modelled explicitly: the located-and-parsed CSV
  is an `Option DataFrame` in the environment, the two joblib cache files
  are a `CacheFS` record, and the success of each `joblib.dump` call is a
  boolean of the environment (the repository swallows dump exceptions).
* `TfidfVectorizer` (scikit-learn, external to the repository) is
  modelled from the spec: a fitted model is a vocabulary plus a pure
  per-text weighting function producing one row of TF-IDF weights; the
  spec guarantees each produced row is L2-normalized ("standard TF-IDF
  vectorization already guarantees [normalization] by normalizing each
  row"), which over exact arithmetic is `⟪w,w⟫ = 1` for a non-empty
  weighting and `⟪w,w⟫ = 0` for an all-zero weighting.  The vocabulary a
  fit produces (sorted distinct non-stop-word tokens) and the error
  scikit-learn raises when that vocabulary is empty are modelled
  concretely; the numeric idf weights (which involve logarithms) stay an
  abstract function of the fitted text list.
-/

/-- Error taxonomy of the loader/index (spec §7).  `DatasetNotFound` is the
`FileNotFoundError` of `_find_csv_path`, `NoTextColumn` the `KeyError` of
`_detect_text_column`, `EmptyCorpus` the `ValueError` scikit-learn raises
when fitting a corpus with an empty vocabulary, `NotReady` a read of unset
module globals (unreachable after a successful `ensure_models_loaded`). -/
inductive RecError where
  | DatasetNotFound
  | NoTextColumn
  | EmptyCorpus
  | NotReady
deriving DecidableEq, Repr

/-- One source row: column name ↦ optional cell (none = NaN/null). -/
abbrev Row := List (String × Option String)

/-- A pandas DataFrame: ordered named columns, each tagged with the result
of `pd.api.types.is_string_dtype` on it, plus the rows. -/
structure DataFrame where
  cols : List (String × Bool)
  rows : List Row
deriving DecidableEq, Repr

def DataFrame.colNames (df : DataFrame) : List String := df.cols.map Prod.fst

/-- `row.find` by column name: `none` = column absent from the row,
`some none` = present but null. -/
def rowCell? (row : Row) (c : String) : Option (Option String) :=
  (row.find? (fun kv => kv.1 = c)).map Prod.snd

/-- `str(...)` of a cell as pandas `astype(str)` renders it: the string
itself, or `"nan"` for a null. -/
def cellToStr : Option String → String
  | some s => s
  | none => "nan"

/-- `df[c].astype(str)` as a list of strings, one per row. -/
def colTexts (df : DataFrame) (c : String) : List String :=
  df.rows.map (fun row => cellToStr ((rowCell? row c).join))

/-- `df.dropna(subset=[c]).reset_index(drop=True)`: keep the rows whose
cell in column `c` is present and non-null; positional indexing of the
list model is the reset row index. -/
def dropnaReset (df : DataFrame) (c : String) : DataFrame :=
  { df with rows := df.rows.filter (fun row => ((rowCell? row c).join).isSome) }

/-- The fixed candidate list of `_detect_text_column`. -/
def candidateCols : List String :=
  ["text", "content", "description", "clean_text", "title", "review"]

/-- `_detect_text_column`: first conventional name present among the
columns; else the first column whose dtype is string-like; else the
`KeyError` (= `NoTextColumn`). -/
def detectTextColumn (df : DataFrame) : Except RecError String :=
  match candidateCols.find? (fun c => df.colNames.contains c) with
  | some c => .ok c
  | none =>
    match df.cols.find? (fun cb => cb.2) with
    | some cb => .ok cb.1
    | none => .error .NoTextColumn

/-- Is `ch` a word character of the default scikit-learn token pattern
`(?u)\b\w\w+\b` (alphanumeric or underscore)? -/
def isWordChar (ch : Char) : Bool := ch.isAlphanum || ch = '_'

/-- Flush a reversed run of word characters: tokens are maximal runs of
word characters of length at least two. -/
def flushTok (acc : List Char) : List String :=
  if acc.length ≥ 2 then [String.mk acc.reverse] else []

def tokenizeAux : List Char → List Char → List String
  | [], acc => flushTok acc
  | ch :: rest, acc =>
    if isWordChar ch then tokenizeAux rest (ch :: acc)
    else flushTok acc ++ tokenizeAux rest []

/-- Modelled from the spec: scikit-learn's default tokenization
(lowercase, maximal word-character runs of length ≥ 2). -/
def tokenize (s : String) : List String :=
  tokenizeAux (s.toList.map Char.toLower) []

/-- Modelled from the spec: scikit-learn's `ENGLISH_STOP_WORDS`
(the fixed English stop-word list selected by `stop_words="english"`). -/
def englishStopWords : List String :=
  ["a", "about", "above", "across", "after", "afterwards", "again",
   "against", "all", "almost", "alone", "along", "already", "also",
   "although", "always", "am", "among", "amongst", "amoungst", "amount",
   "an", "and", "another", "any", "anyhow", "anyone", "anything",
   "anyway", "anywhere", "are", "around", "as", "at", "back", "be",
   "became", "because", "become", "becomes", "becoming", "been",
   "before", "beforehand", "behind", "being", "below", "beside",
   "besides", "between", "beyond", "bill", "both", "bottom", "but",
   "by", "call", "can", "cannot", "cant", "co", "con", "could",
   "couldnt", "cry", "de", "describe", "detail", "do", "done", "down",
   "due", "during", "each", "eg", "eight", "either", "eleven", "else",
   "elsewhere", "empty", "enough", "etc", "even", "ever", "every",
   "everyone", "everything", "everywhere", "except", "few", "fifteen",
   "fifty", "fill", "find", "fire", "first", "five", "for", "former",
   "formerly", "forty", "found", "four", "from", "front", "full",
   "further", "get", "give", "go", "had", "has", "hasnt", "have", "he",
   "hence", "her", "here", "hereafter", "hereby", "herein", "hereupon",
   "hers", "herself", "him", "himself", "his", "how", "however",
   "hundred", "i", "ie", "if", "in", "inc", "indeed", "interest",
   "into", "is", "it", "its", "itself", "keep", "last", "latter",
   "latterly", "least", "less", "ltd", "made", "many", "may", "me",
   "meanwhile", "might", "mill", "mine", "more", "moreover", "most",
   "mostly", "move", "much", "must", "my", "myself", "name", "namely",
   "neither", "never", "nevertheless", "next", "nine", "no", "nobody",
   "none", "noone", "nor", "not", "nothing", "now", "nowhere", "of",
   "off", "often", "on", "once", "one", "only", "onto", "or", "other",
   "others", "otherwise", "our", "ours", "ourselves", "out", "over",
   "own", "part", "per", "perhaps", "please", "put", "rather", "re",
   "same", "see", "seem", "seemed", "seeming", "seems", "serious",
   "several", "she", "should", "show", "side", "since", "sincere",
   "six", "sixty", "so", "some", "somehow", "someone", "something",
   "sometime", "sometimes", "somewhere", "still", "such", "system",
   "take", "ten", "than", "that", "the", "their", "them", "themselves",
   "then", "thence", "there", "thereafter", "thereby", "therefore",
   "therein", "thereupon", "these", "they", "thick", "thin", "third",
   "this", "those", "though", "three", "through", "throughout", "thru",
   "thus", "to", "together", "too", "top", "toward", "towards",
   "twelve", "twenty", "two", "un", "under", "until", "up", "upon",
   "us", "very", "via", "was", "we", "well", "were", "what", "whatever",
   "when", "whence", "whenever", "where", "whereafter", "whereas",
   "whereby", "wherein", "whereupon", "wherever", "whether", "which",
   "while", "whither", "who", "whoever", "whole", "whom", "whose",
   "why", "will", "with", "within", "without", "would", "yet", "you",
   "your", "yours", "yourself", "yourselves"]

/-- Modelled from the spec: the vocabulary a `TfidfVectorizer` fit
produces — the sorted distinct tokens of the corpus after English
stop-word removal. -/
def buildVocabulary (texts : List String) : List String :=
  List.insertionSort (fun a b => a ≤ b)
    (((texts.flatMap tokenize).filter (fun t => t ∉ englishStopWords)).dedup)

theorem buildVocabulary_nil : buildVocabulary [] = [] := rfl

/-- Dot product of two weight rows (`linear_kernel` entry). -/
def dotQ (u v : List ℚ) : ℚ := (List.zipWith (· * ·) u v).sum

/-- Modelled from the spec: a fitted scikit-learn `TfidfVectorizer`.
`weight s` is the single row `transform([s])` produces; the spec
guarantees each row is L2-normalized (unit norm, or the zero row when no
vocabulary term occurs in `s`). -/
structure TfidfVectorizer where
  vocabulary : List String
  weight : String → List ℚ
  weight_len : ∀ s, (weight s).length = vocabulary.length
  weight_norm : ∀ s, dotQ (weight s) (weight s) = 1 ∨ dotQ (weight s) (weight s) = 0

/-- The two cache files `tfidf_vectorizer.pkl` / `cleaned_dataset.pkl`. -/
structure CacheFS where
  vect? : Option TfidfVectorizer
  data? : Option DataFrame

/-- The external world of one load: the located-and-parsed CSV (if any
exists in `DATA_DIR`), the cache files, whether each `joblib.dump`
succeeds, and the (spec-modelled) idf weighting the library would fit on
a given text list. -/
structure Env where
  csv? : Option DataFrame
  fs : CacheFS
  dumpVecOk : Bool
  dumpDataOk : Bool
  fitWeight : List String → String → List ℚ
  fitWeight_len : ∀ ts s, (fitWeight ts s).length = (buildVocabulary ts).length
  fitWeight_norm : ∀ ts s,
    dotQ (fitWeight ts s) (fitWeight ts s) = 1 ∨ dotQ (fitWeight ts s) (fitWeight ts s) = 0

/-- Modelled from the spec: `TfidfVectorizer(stop_words="english").fit`.
scikit-learn raises (the spec's `EmptyCorpus`) exactly when the fitted
vocabulary is empty — in particular on a corpus of zero documents. -/
def fitVectorizer (env : Env) (texts : List String) : Except RecError TfidfVectorizer :=
  if buildVocabulary texts = [] then .error .EmptyCorpus
  else .ok ⟨buildVocabulary texts, env.fitWeight texts,
            env.fitWeight_len texts, env.fitWeight_norm texts⟩

/-- The ready index: the values of the four module globals once all are
set (`_df`, `_vectorizer`, `_matrix`, `_text_col`). -/
structure RecState where
  df : DataFrame
  vectorizer : TfidfVectorizer
  matrix : List (List ℚ)
  textCol : String

/-- `_build_from_csv`: locate+parse the CSV, detect the text column, drop
null-text rows, fit TF-IDF on the remaining text, best-effort dump the
two cache files (a failed first dump skips the second; all dump failures
are swallowed), and return the new state plus resulting cache files. -/
def buildFromCsv (env : Env) : Except RecError (RecState × CacheFS) :=
  match env.csv? with
  | none => .error .DatasetNotFound
  | some raw =>
    match detectTextColumn raw with
    | .error e => .error e
    | .ok textCol =>
      let df := dropnaReset raw textCol
      let texts := colTexts df textCol
      match fitVectorizer env texts with
      | .error e => .error e
      | .ok vec =>
        let mat := texts.map vec.weight
        let fs : CacheFS :=
          { vect? := if env.dumpVecOk then some vec else env.fs.vect?
            data? := if env.dumpVecOk && env.dumpDataOk then some df else env.fs.data? }
        .ok (⟨df, vec, mat, textCol⟩, fs)

/-- The four module-level globals of `recommender.py` (each `None` until
first load). -/
structure Globals where
  vectorizer? : Option TfidfVectorizer
  df? : Option DataFrame
  matrix? : Option (List (List ℚ))
  textCol? : Option String

def Globals.initial : Globals := ⟨none, none, none, none⟩

/-- The globals viewed as a ready state, when all four are set. -/
def Globals.toState? (g : Globals) : Option RecState :=
  match g.vectorizer?, g.df?, g.matrix?, g.textCol? with
  | some v, some d, some m, some t => some ⟨d, v, m, t⟩
  | _, _, _, _ => none

/-- `ensure_models_loaded`: early-return when the three checked globals
are set; else if both cache files exist, load them, re-derive the text
column from the cached corpus and `transform` (never refit) its text
through the cached model; else build from the CSV.  On the failing paths
the raised exception propagates (the partial global assignment the cached
branch performs before a `KeyError` is not observable through any
successful call, so the error result carries no globals). -/
def ensureReady (g : Globals) (env : Env) : Except RecError (Globals × CacheFS) :=
  if g.vectorizer?.isSome && g.df?.isSome && g.matrix?.isSome then
    .ok (g, env.fs)
  else
    match env.fs.vect?, env.fs.data? with
    | some vec, some df =>
      match detectTextColumn df with
      | .error e => .error e
      | .ok textCol =>
        let mat := (colTexts df textCol).map vec.weight
        .ok (⟨some vec, some df, some mat, some textCol⟩, env.fs)
    | some _, none =>
      match buildFromCsv env with
      | .error e => .error e
      | .ok (st, fs) => .ok (⟨some st.vectorizer, some st.df, some st.matrix, some st.textCol⟩, fs)
    | none, _ =>
      match buildFromCsv env with
      | .error e => .error e
      | .ok (st, fs) => .ok (⟨some st.vectorizer, some st.df, some st.matrix, some st.textCol⟩, fs)

/-- `sims[i]` with numpy's in-bounds read modelled totally. -/
def sAt (s : List ℚ) (i : Nat) : ℚ := s.getD i 0

/-- Ascending comparison numpy's `argsort` realizes in this model:
by value, ties by original index (a deterministic refinement of the
unspecified tie order of the source's sort, see the spec's open
question on tie-breaking). -/
def idxRel (s : List ℚ) (i j : Nat) : Prop :=
  sAt s i < sAt s j ∨ (sAt s i = sAt s j ∧ i ≤ j)

instance (s : List ℚ) : DecidableRel (idxRel s) := fun i j =>
  inferInstanceAs (Decidable (sAt s i < sAt s j ∨ (sAt s i = sAt s j ∧ i ≤ j)))

/-- `sims.argsort()`: the indices `0..n-1` sorted ascending by value. -/
def argsortAsc (s : List ℚ) : List Nat :=
  List.insertionSort (idxRel s) (List.range s.length)

/-- Python slice start for `a[start:]` on a list of length `n`. -/
def pyStart (start : Int) (n : Nat) : Nat :=
  if start < 0 then (max ((n : Int) + start) 0).toNat else min start.toNat n

/-- Python `a[-k:]` (note `-0 = 0`: `a[-0:]` is the whole list). -/
def pyTailFrom (k : Int) (l : List Nat) : List Nat :=
  l.drop (pyStart (-k) l.length)

/-- `sims.argsort()[-k:][::-1]`. -/
def topIdx (sims : List ℚ) (k : Int) : List Nat :=
  (pyTailFrom k (argsortAsc sims)).reverse

/-- Python `round(x, 6)` is round-half-to-even; modelled exactly. -/
def roundHalfEven (q : ℚ) : ℤ :=
  if q - (⌊q⌋ : ℚ) < 1 / 2 then ⌊q⌋
  else if 1 / 2 < q - (⌊q⌋ : ℚ) then ⌊q⌋ + 1
  else if ⌊q⌋ % 2 = 0 then ⌊q⌋ else ⌊q⌋ + 1

def round6 (q : ℚ) : ℚ := (roundHalfEven (q * 1000000) : ℚ) / 1000000

/-- One element of the returned list. -/
structure ResultItem where
  rank : Nat
  score : ℚ
  text : String
  extras : List (String × Option String)
deriving DecidableEq, Repr

/-- `str(row.get(_text_col, ""))`: the cell's string, `"nan"` for a null
cell, `""` when the column is absent from the row. -/
def itemText (row : Row) (c : String) : String :=
  match rowCell? row c with
  | some v => cellToStr v
  | none => ""

/-- The fixed optional passthrough columns. -/
def extraCols : List String := ["title", "id", "label", "category"]

/-- One result record of the loop body of `recommend_topk`. -/
def mkItem (st : RecState) (sims : List ℚ) (rank : Nat) (idx : Nat) : ResultItem :=
  let row := st.df.rows.getD idx []
  { rank := rank
    score := round6 (sAt sims idx)
    text := itemText row st.textCol
    extras := (extraCols.filter (fun e => st.df.colNames.contains e)).map
      (fun e => (e, (rowCell? row e).join)) }

/-- The `for i, idx in enumerate(top_idx, start=1)` loop. -/
def mkResults (st : RecState) (sims : List ℚ) : Nat → List Nat → List ResultItem
  | _, [] => []
  | rank, idx :: rest => mkItem st sims rank idx :: mkResults st sims (rank + 1) rest

/-- The similarity row `linear_kernel(q_vec, _matrix).ravel()`. -/
def simsOf (st : RecState) (query : String) : List ℚ :=
  st.matrix.map (fun row => dotQ (st.vectorizer.weight query) row)

/-- The computation of `recommend_topk` after `ensure_models_loaded`, as
a pure function of the ready state. -/
def recommendCore (st : RecState) (query : String) (k : Int) : List ResultItem :=
  mkResults st (simsOf st query) 1 (topIdx (simsOf st query) k)

/-- `recommend_topk(query, k)` with the module globals threaded
explicitly. -/
def recommend_topk (g : Globals) (env : Env) (query : String) (k : Int) :
    Except RecError (List ResultItem × Globals × CacheFS) :=
  match ensureReady g env with
  | .error e => .error e
  | .ok (g', fs) =>
    match g'.toState? with
    | some st => .ok (recommendCore st query k, g', fs)
    | none => .error .NotReady

/-- The texts of the corpus column the index was built over. -/
def docTexts (st : RecState) : List String := colTexts st.df st.textCol

/-! ### Basic lemmas about the embedded operations -/

theorem mkResults_length (st : RecState) (sims : List ℚ) (r : Nat) (idxs : List Nat) :
    (mkResults st sims r idxs).length = idxs.length := by
  induction idxs generalizing r with
  | nil => rfl
  | cons a l ih => simp [mkResults, ih]

theorem mkResults_getElem? (st : RecState) (sims : List ℚ) (r : Nat) (idxs : List Nat)
    (i : Nat) :
    (mkResults st sims r idxs)[i]? = (idxs[i]?).map (fun idx => mkItem st sims (r + i) idx) := by
  induction idxs generalizing r i with
  | nil => simp [mkResults]
  | cons a l ih =>
    cases i with
    | zero => simp [mkResults]
    | succ i =>
      simp only [mkResults, List.getElem?_cons_succ, ih (r + 1) i]
      have harith : r + 1 + i = r + (i + 1) := by omega
      rw [harith]

instance idxRelTotal (s : List ℚ) : IsTotal Nat (idxRel s) where
  total i j := by
    unfold idxRel
    rcases lt_trichotomy (sAt s i) (sAt s j) with h | h | h
    · exact Or.inl (Or.inl h)
    · rcases Nat.le_total i j with hij | hij
      · exact Or.inl (Or.inr ⟨h, hij⟩)
      · exact Or.inr (Or.inr ⟨h.symm, hij⟩)
    · exact Or.inr (Or.inl h)

instance idxRelTrans (s : List ℚ) : IsTrans Nat (idxRel s) where
  trans i j k hij hjk := by
    unfold idxRel at *
    rcases hij with h1 | ⟨h1, h1n⟩ <;> rcases hjk with h2 | ⟨h2, h2n⟩
    · exact Or.inl (h1.trans h2)
    · exact Or.inl (h2 ▸ h1)
    · exact Or.inl (h1 ▸ h2)
    · exact Or.inr ⟨h1.trans h2, h1n.trans h2n⟩

theorem idxRel_refl (s : List ℚ) (i : Nat) : idxRel s i i :=
  Or.inr ⟨rfl, le_refl i⟩

theorem argsort_sorted (s : List ℚ) : List.Sorted (idxRel s) (argsortAsc s) :=
  List.sorted_insertionSort (idxRel s) (List.range s.length)

theorem argsort_perm (s : List ℚ) : (argsortAsc s).Perm (List.range s.length) :=
  List.perm_insertionSort (idxRel s) (List.range s.length)

theorem argsort_length (s : List ℚ) : (argsortAsc s).length = s.length := by
  simpa using (argsort_perm s).length_eq

theorem mem_argsort (s : List ℚ) (j : Nat) : j ∈ argsortAsc s ↔ j < s.length := by
  rw [(argsort_perm s).mem_iff, List.mem_range]

/-- Along the ascending argsort, similarity values are monotone in
position. -/
theorem argsort_at_mono (s : List ℚ) {p q : Nat} (hpq : p ≤ q)
    (hq : q < (argsortAsc s).length) :
    sAt s ((argsortAsc s).getD p 0) ≤ sAt s ((argsortAsc s).getD q 0) := by
  have hp : p < (argsortAsc s).length := lt_of_le_of_lt hpq hq
  rcases Nat.lt_or_ge p q with hlt | hge
  · have hrel := (List.pairwise_iff_get.mp (argsort_sorted s)) ⟨p, hp⟩ ⟨q, hq⟩ hlt
    rw [List.getD_eq_getElem _ _ hp, List.getD_eq_getElem _ _ hq]
    rcases hrel with h | ⟨h, _⟩
    · exact le_of_lt (by simpa [List.get_eq_getElem] using h)
    · exact le_of_eq (by simpa [List.get_eq_getElem] using h)
  · have : p = q := le_antisymm hpq hge
    subst this
    exact le_refl _

/-- Every index below `s.length` occurs at some position of the argsort. -/
theorem argsort_surj (s : List ℚ) {j : Nat} (hj : j < s.length) :
    ∃ p, p < (argsortAsc s).length ∧ (argsortAsc s).getD p 0 = j := by
  have hmem : j ∈ argsortAsc s := (mem_argsort s j).mpr hj
  rcases List.getElem_of_mem hmem with ⟨p, hp, hget⟩
  exact ⟨p, hp, by rw [List.getD_eq_getElem _ _ hp]; exact hget⟩

theorem topIdx_length (s : List ℚ) (k : Int) :
    (topIdx s k).length = s.length - pyStart (-k) s.length := by
  simp [topIdx, pyTailFrom, argsort_length]

theorem topIdx_getElem? (s : List ℚ) (k : Int) {i : Nat} (hi : i < (topIdx s k).length) :
    (topIdx s k)[i]? = (argsortAsc s)[s.length - 1 - i]? := by
  have hlen := topIdx_length s k
  set start := pyStart (-k) s.length with hstart
  have hdroplen : ((argsortAsc s).drop start).length = s.length - start := by
    simp [argsort_length]
  have h1 : (topIdx s k)[i]? = ((argsortAsc s).drop start)[s.length - start - 1 - i]? := by
    unfold topIdx pyTailFrom
    rw [argsort_length, List.getElem?_reverse (by rw [hdroplen]; omega : i < ((argsortAsc s).drop start).length)]
    rw [hdroplen]
  rw [h1, List.getElem?_drop]
  congr 1
  omega

/-- Position 0 of the top list (when it is non-empty) carries a globally
maximal similarity value. -/
theorem topIdx_head_max (s : List ℚ) (k : Int) (h0 : 0 < (topIdx s k).length)
    {h : Nat} (hh : (topIdx s k)[0]? = some h) {j : Nat} (hj : j < s.length) :
    sAt s j ≤ sAt s h := by
  have hlen := topIdx_length s k
  have hget := topIdx_getElem? s k h0
  rw [hh] at hget
  have hm1 : s.length - 1 - 0 < (argsortAsc s).length := by
    rw [argsort_length]; omega
  have hhd : (argsortAsc s).getD (s.length - 1 - 0) 0 = h := by
    rw [List.getD_eq_getElem _ _ hm1]
    have := hget.symm
    rw [List.getElem?_eq_getElem hm1] at this
    exact (Option.some.injEq _ _).mp this
  rcases argsort_surj s hj with ⟨p, hp, hpj⟩
  have hmono := argsort_at_mono s (p := p) (q := s.length - 1 - 0)
    (by rw [argsort_length] at hp; omega) hm1
  rw [hpj, hhd] at hmono
  exact hmono

/-! ### Rounding -/

theorem roundHalfEven_bounds (q : ℚ) :
    (⌊q⌋ : ℤ) ≤ roundHalfEven q ∧ roundHalfEven q ≤ ⌊q⌋ + 1 := by
  unfold roundHalfEven
  split_ifs <;> omega

theorem roundHalfEven_mono {a b : ℚ} (hab : a ≤ b) :
    roundHalfEven a ≤ roundHalfEven b := by
  have hf : ⌊a⌋ ≤ ⌊b⌋ := Int.floor_mono hab
  rcases lt_or_eq_of_le hf with hlt | heq
  · have h1 := (roundHalfEven_bounds a).2
    have h2 := (roundHalfEven_bounds b).1
    omega
  · unfold roundHalfEven
    rw [← heq]
    have hr : a - (⌊a⌋ : ℚ) ≤ b - (⌊a⌋ : ℚ) := by linarith
    split_ifs with h1 h2 h3 h4 h5 h6 h7 h8 <;> try omega
    all_goals (exfalso; linarith)

theorem round6_mono {a b : ℚ} (hab : a ≤ b) : round6 a ≤ round6 b := by
  unfold round6
  have h : roundHalfEven (a * 1000000) ≤ roundHalfEven (b * 1000000) :=
    roundHalfEven_mono (by nlinarith)
  have h' : ((roundHalfEven (a * 1000000) : ℤ) : ℚ) ≤ ((roundHalfEven (b * 1000000) : ℤ) : ℚ) := by
    exact_mod_cast h
  linarith

/-! ### Dot products of normalized rows -/

theorem dotQ_nil_left (v : List ℚ) : dotQ [] v = 0 := by simp [dotQ]

theorem dotQ_nil_right (u : List ℚ) : dotQ u [] = 0 := by simp [dotQ]

theorem dotQ_cons (x y : ℚ) (l m : List ℚ) :
    dotQ (x :: l) (y :: m) = x * y + dotQ l m := by
  simp [dotQ]

theorem dotQ_self_nonneg (u : List ℚ) : 0 ≤ dotQ u u := by
  induction u with
  | nil => simp [dotQ_nil_left]
  | cons x l ih =>
    rw [dotQ_cons]
    have hx : 0 ≤ x * x := mul_self_nonneg x
    linarith

theorem two_mul_dotQ_le (u v : List ℚ) : 2 * dotQ u v ≤ dotQ u u + dotQ v v := by
  induction u generalizing v with
  | nil =>
    have hv := dotQ_self_nonneg v
    rw [dotQ_nil_left, dotQ_nil_left]
    linarith
  | cons x l ih =>
    cases v with
    | nil =>
      have hu := dotQ_self_nonneg (x :: l)
      rw [dotQ_nil_right, dotQ_nil_right]
      linarith
    | cons y m =>
      have hxy : 2 * (x * y) ≤ x * x + y * y := by nlinarith [sq_nonneg (x - y)]
      have ihm := ih m
      rw [dotQ_cons, dotQ_cons, dotQ_cons]
      linarith

theorem dotQ_self_eq_zero (u : List ℚ) (hu : dotQ u u = 0) (v : List ℚ) :
    dotQ u v = 0 := by
  induction u generalizing v with
  | nil => simp [dotQ_nil_left]
  | cons x l ih =>
    rw [dotQ_cons] at hu
    have hx : 0 ≤ x * x := mul_self_nonneg x
    have hl : 0 ≤ dotQ l l := dotQ_self_nonneg l
    have hx0 : x * x = 0 := by linarith
    have hxz : x = 0 := mul_self_eq_zero.mp hx0
    have hll : dotQ l l = 0 := by linarith
    cases v with
    | nil => simp [dotQ_nil_right]
    | cons y m =>
      rw [dotQ_cons, hxz, zero_mul, zero_add]
      exact ih hll m

/-! ### Shape of the result list -/

/-- The default used to state positional facts via `List.getD`. -/
def dfltItem : ResultItem := ⟨0, 0, "", []⟩

theorem recommendCore_length (st : RecState) (q : String) (k : Int) :
    (recommendCore st q k).length =
      st.matrix.length - pyStart (-k) st.matrix.length := by
  unfold recommendCore
  rw [mkResults_length, topIdx_length]
  simp [simsOf]

/-- Positional characterisation of the result list: the `j`-th record is
built from the argsort position `n - 1 - j`. -/
theorem recommendCore_item (st : RecState) (q : String) (k : Int) {j : Nat}
    (hj : j < (recommendCore st q k).length) :
    (recommendCore st q k).getD j dfltItem =
      mkItem st (simsOf st q) (1 + j)
        ((argsortAsc (simsOf st q)).getD ((simsOf st q).length - 1 - j) 0) := by
  have hj' : j < (topIdx (simsOf st q) k).length := by
    rw [recommendCore_length] at hj
    rw [topIdx_length]
    simpa [simsOf] using hj
  have hpos : (simsOf st q).length - 1 - j < (argsortAsc (simsOf st q)).length := by
    rw [argsort_length]
    have := topIdx_length (simsOf st q) k
    omega
  have htop := topIdx_getElem? (simsOf st q) k hj'
  rw [List.getElem?_eq_getElem hpos] at htop
  have hmk := mkResults_getElem? st (simsOf st q) 1 (topIdx (simsOf st q) k) j
  rw [htop] at hmk
  unfold recommendCore
  rw [List.getD_eq_getElem?_getD, hmk, Option.map_some', Option.getD_some,
    List.getD_eq_getElem _ _ hpos]

theorem recommendCore_rank (st : RecState) (q : String) (k : Int) {j : Nat}
    (hj : j < (recommendCore st q k).length) :
    ((recommendCore st q k).getD j dfltItem).rank = j + 1 := by
  rw [recommendCore_item st q k hj]
  simp only [mkItem]
  omega

theorem recommendCore_score_antitone (st : RecState) (q : String) (k : Int) {j : Nat}
    (hj : j + 1 < (recommendCore st q k).length) :
    ((recommendCore st q k).getD (j + 1) dfltItem).score ≤
      ((recommendCore st q k).getD j dfltItem).score := by
  have hj0 : j < (recommendCore st q k).length := by omega
  rw [recommendCore_item st q k hj, recommendCore_item st q k hj0]
  simp only [mkItem]
  apply round6_mono
  have hlen := recommendCore_length st q k
  have hm : (simsOf st q).length = st.matrix.length := by simp [simsOf]
  apply argsort_at_mono
  · omega
  · rw [argsort_length]; omega

/-! ### Concrete instances used by the witnesses -/

/-- A concrete normalized weighting over the vocabulary `["cat"]`, used
to instantiate the abstract TF-IDF weighting in witnesses. -/
def exWeight (s : String) : List ℚ := if "cat" ∈ tokenize s then [1] else [0]

theorem exWeight_len (s : String) : (exWeight s).length = 1 := by
  unfold exWeight; split <;> rfl

theorem exWeight_norm (s : String) :
    dotQ (exWeight s) (exWeight s) = 1 ∨ dotQ (exWeight s) (exWeight s) = 0 := by
  unfold exWeight
  split
  · left; simp [dotQ]
  · right; simp [dotQ]

def exVec : TfidfVectorizer where
  vocabulary := ["cat"]
  weight := exWeight
  weight_len := fun s => by rw [exWeight_len]; rfl
  weight_norm := exWeight_norm

/-- A two-document corpus with an `id` passthrough column. -/
def exDf : DataFrame where
  cols := [("id", false), ("text", true)]
  rows := [[("id", some "0"), ("text", some "cat")],
           [("id", some "1"), ("text", some "dog")]]

def exSt : RecState where
  df := exDf
  vectorizer := exVec
  matrix := [[1], [0]]
  textCol := "text"

/-! ### Claims C1, C2, C10 -/

/-- Claim C1: for every corpus with N documents (N ≥ 1) and every query
text, `query(text, k)` with `k > 0` returns exactly `min(k, N)` result
records; when `k` exceeds the corpus size it returns all N documents
ranked, with no error and no padding. -/
theorem claim_C1_topk_count (st : RecState) (q : String) (k : Int)
    (halign : st.df.rows.length = st.matrix.length)
    (hN : 1 ≤ st.df.rows.length) (hk : 0 < k) :
    (recommendCore st q k).length = min k.toNat st.df.rows.length := by
  rw [recommendCore_length, ← halign]
  unfold pyStart
  rw [if_pos (by omega : -k < 0)]
  rcases max_cases ((st.df.rows.length : Int) + -k) 0 with ⟨h1, h2⟩ | ⟨h1, h2⟩ <;>
    rw [h1] <;> omega

theorem claim_C1_topk_count_witness :
    exSt.df.rows.length = exSt.matrix.length ∧ 1 ≤ exSt.df.rows.length ∧ (0 : Int) < 5 ∧
    (recommendCore exSt "cat" 5).length = min (5 : Int).toNat exSt.df.rows.length :=
  ⟨by decide, by decide, by decide,
   claim_C1_topk_count exSt "cat" 5 (by decide) (by decide) (by decide)⟩

/-- Claim C2: for every query text and every `k > 0`, the result sequence
is ordered by 1-based consecutive ranks, and the (rounded) similarity
scores are non-increasing across rank order. -/
theorem claim_C2_rank_order (st : RecState) (q : String) (k : Int) (hk : 0 < k) :
    (∀ i, i < (recommendCore st q k).length →
        ((recommendCore st q k).getD i dfltItem).rank = i + 1) ∧
    (∀ i, i + 1 < (recommendCore st q k).length →
        ((recommendCore st q k).getD (i + 1) dfltItem).score ≤
          ((recommendCore st q k).getD i dfltItem).score) :=
  ⟨fun _ hi => recommendCore_rank st q k hi,
   fun _ hi => recommendCore_score_antitone st q k hi⟩

theorem claim_C2_rank_order_witness :
    (0 : Int) < 2 ∧
    ((recommendCore exSt "cat" 2).getD 0 dfltItem).rank = 0 + 1 ∧
    ((recommendCore exSt "cat" 2).getD (0 + 1) dfltItem).score ≤
      ((recommendCore exSt "cat" 2).getD 0 dfltItem).score :=
  ⟨by decide,
   (claim_C2_rank_order exSt "cat" 2 (by decide)).1 0 (by with_unfolding_all decide),
   (claim_C2_rank_order exSt "cat" 2 (by decide)).2 0 (by with_unfolding_all decide)⟩

/-- Claim C10 (implicit): for every ready index over N documents,
`query(text, 0)` returns all N documents ranked by descending score — an
N-element list, not an empty one — because the Python slice
`argsort()[-0:]` with `-0 = 0` selects every index. -/
theorem claim_C10_k_zero_returns_all (st : RecState) (q : String)
    (halign : st.df.rows.length = st.matrix.length) :
    (recommendCore st q 0).length = st.df.rows.length ∧
    (∀ i, i + 1 < (recommendCore st q 0).length →
        ((recommendCore st q 0).getD (i + 1) dfltItem).score ≤
          ((recommendCore st q 0).getD i dfltItem).score) := by
  constructor
  · rw [recommendCore_length, ← halign]
    unfold pyStart
    norm_num
  · exact fun _ hi => recommendCore_score_antitone st q 0 hi

theorem claim_C10_k_zero_returns_all_witness :
    (recommendCore exSt "cat" 0).length = exSt.df.rows.length ∧
    ((recommendCore exSt "cat" 0).getD (0 + 1) dfltItem).score ≤
      ((recommendCore exSt "cat" 0).getD 0 dfltItem).score :=
  ⟨(claim_C10_k_zero_returns_all exSt "cat" (by decide)).1,
   (claim_C10_k_zero_returns_all exSt "cat" (by decide)).2 0 (by with_unfolding_all decide)⟩

/-! ### Claim C7: the text-column selection policy -/

/-- `find?` returns the element at the first position satisfying the
predicate. -/
theorem find?_first {α : Type} (p : α → Bool) (d : α) (l : List α) {i : Nat}
    (hi : i < l.length) (hp : p (l.getD i d) = true)
    (hb : ∀ j, j < i → p (l.getD j d) = false) :
    l.find? p = some (l.getD i d) := by
  induction l generalizing i with
  | nil => simp at hi
  | cons a t ih =>
    cases i with
    | zero =>
      simp only [List.getD_cons_zero] at hp ⊢
      exact List.find?_cons_of_pos t hp
    | succ i =>
      have ha : p a = false := by
        have := hb 0 (Nat.succ_pos i)
        simpa using this
      rw [List.find?_cons_of_neg t (by simp [ha])]
      simp only [List.getD_cons_succ]
      exact ih (by simpa using hi) (by simpa using hp)
        (fun j hj => by simpa using hb (j + 1) (by omega))

/-- Claim C7: `detect_text_column` implements first-match-wins: it returns
the first name of the fixed ordered candidate list that is a column of the
table; if none is present, the first column whose dtype is string-like;
and if no column qualifies it fails with `NoTextColumn`. -/
theorem claim_C7_detect_first_match (df : DataFrame) :
    (∀ i, i < candidateCols.length →
      df.colNames.contains (candidateCols.getD i "") = true →
      (∀ j, j < i → df.colNames.contains (candidateCols.getD j "") = false) →
      detectTextColumn df = .ok (candidateCols.getD i "")) ∧
    ((∀ c ∈ candidateCols, df.colNames.contains c = false) →
      ∀ i, i < df.cols.length →
        (df.cols.getD i ("", false)).2 = true →
        (∀ j, j < i → (df.cols.getD j ("", false)).2 = false) →
        detectTextColumn df = .ok (df.cols.getD i ("", false)).1) ∧
    ((∀ c ∈ candidateCols, df.colNames.contains c = false) →
      (∀ cb ∈ df.cols, cb.2 = false) →
      detectTextColumn df = .error .NoTextColumn) := by
  have hcand : ∀ (hnone : ∀ c ∈ candidateCols, df.colNames.contains c = false),
      candidateCols.find? (fun c => df.colNames.contains c) = none := by
    intro hnone
    rw [List.find?_eq_none]
    intro c hc
    show ¬(df.colNames.contains c = true)
    rw [hnone c hc]
    exact Bool.false_ne_true
  refine ⟨?_, ?_, ?_⟩
  · intro i hi hp hb
    unfold detectTextColumn
    rw [find?_first (fun c => df.colNames.contains c) "" candidateCols hi hp hb]
  · intro hnone i hi hp hb
    unfold detectTextColumn
    rw [hcand hnone, find?_first (fun cb => cb.2) ("", false) df.cols hi hp hb]
  · intro hnone hstr
    unfold detectTextColumn
    rw [hcand hnone]
    have : df.cols.find? (fun cb => cb.2) = none := by
      rw [List.find?_eq_none]
      intro cb hcb
      show ¬(cb.2 = true)
      rw [hstr cb hcb]
      exact Bool.false_ne_true
    rw [this]

theorem claim_C7_detect_first_match_witness :
    detectTextColumn exDf = .ok (candidateCols.getD 0 "") :=
  (claim_C7_detect_first_match exDf).1 0 (by decide) (by decide)
    (fun j hj => absurd hj (Nat.not_lt_zero j))

/-! ### A concrete normalized weighting family for witness environments -/

/-- Standard basis row of length `n` with the 1 at position `i` (all
zeros when `i ≥ n`). -/
def basisVec : Nat → Nat → List ℚ
  | 0, _ => []
  | n + 1, 0 => 1 :: List.replicate n 0
  | n + 1, i + 1 => 0 :: basisVec n i

theorem basisVec_length (n i : Nat) : (basisVec n i).length = n := by
  induction n generalizing i with
  | zero => rfl
  | succ n ih =>
    cases i with
    | zero => simp [basisVec]
    | succ i => simp [basisVec, ih]

theorem dotQ_replicate_zero (n : Nat) :
    dotQ (List.replicate n 0) (List.replicate n 0) = 0 := by
  induction n with
  | zero => simp [dotQ]
  | succ n ih => rw [List.replicate_succ, dotQ_cons, ih]; ring

theorem dotQ_basisVec_self (n i : Nat) :
    dotQ (basisVec n i) (basisVec n i) = 1 ∨ dotQ (basisVec n i) (basisVec n i) = 0 := by
  induction n generalizing i with
  | zero => right; simp [basisVec, dotQ]
  | succ n ih =>
    cases i with
    | zero =>
      left
      rw [basisVec, dotQ_cons, dotQ_replicate_zero]
      ring
    | succ i =>
      rw [basisVec, dotQ_cons]
      rcases ih i with h | h <;> rw [h] <;> [left; right] <;> ring

/-- A concrete unit-or-zero weighting over an arbitrary vocabulary: the
basis row of the first vocabulary term occurring in the text. -/
def indWeight (voc : List String) (s : String) : List ℚ :=
  match voc.findIdx? (fun t => t ∈ tokenize s) with
  | some i => basisVec voc.length i
  | none => List.replicate voc.length 0

theorem indWeight_len (voc : List String) (s : String) :
    (indWeight voc s).length = voc.length := by
  unfold indWeight
  cases voc.findIdx? (fun t => t ∈ tokenize s) with
  | none => simp
  | some i => simp [basisVec_length]

theorem indWeight_norm (voc : List String) (s : String) :
    dotQ (indWeight voc s) (indWeight voc s) = 1 ∨
      dotQ (indWeight voc s) (indWeight voc s) = 0 := by
  unfold indWeight
  cases voc.findIdx? (fun t => t ∈ tokenize s) with
  | none => right; simp [dotQ_replicate_zero]
  | some i => exact dotQ_basisVec_self voc.length i

/-- Builds a concrete `Env` for witnesses: the data parts vary, the
abstract TF-IDF weighting is instantiated with `indWeight`. -/
def mkEnv (csv? : Option DataFrame) (fs : CacheFS) (b1 b2 : Bool) : Env where
  csv? := csv?
  fs := fs
  dumpVecOk := b1
  dumpDataOk := b2
  fitWeight := fun ts => indWeight (buildVocabulary ts)
  fitWeight_len := fun ts s => indWeight_len (buildVocabulary ts) s
  fitWeight_norm := fun ts s => indWeight_norm (buildVocabulary ts) s

/-! ### Loader pipeline lemmas and claims C3, C4 -/

theorem initial_not_ready :
    (Globals.initial.vectorizer?.isSome && Globals.initial.df?.isSome &&
      Globals.initial.matrix?.isSome) = false := rfl

theorem toState?_fields {g : Globals} {st : RecState} (h : g.toState? = some st) :
    g.vectorizer? = some st.vectorizer ∧ g.df? = some st.df ∧
      g.matrix? = some st.matrix ∧ g.textCol? = some st.textCol := by
  obtain ⟨v, d, m, t⟩ := g
  cases v <;> cases d <;> cases m <;> cases t <;>
    simp only [Globals.toState?] at h <;> cases h <;> exact ⟨rfl, rfl, rfl, rfl⟩

/-- Detection only inspects the column structure. -/
theorem detectTextColumn_cols_congr (df1 df2 : DataFrame) (h : df1.cols = df2.cols) :
    detectTextColumn df1 = detectTextColumn df2 := by
  unfold detectTextColumn DataFrame.colNames
  rw [h]

theorem dropnaReset_cols (df : DataFrame) (c : String) :
    (dropnaReset df c).cols = df.cols := rfl

/-- Claim C3: for a corpus in which every row has a null value in the
detected text column (so zero documents remain after null-dropping),
readiness fails with `EmptyCorpus` — not with a different error. -/
theorem claim_C3_all_null_empty_corpus (env : Env) (raw : DataFrame) (c : String)
    (hnocache : env.fs.vect? = none ∨ env.fs.data? = none)
    (hcsv : env.csv? = some raw)
    (hdet : detectTextColumn raw = .ok c)
    (hnull : ∀ row ∈ raw.rows, (rowCell? row c).join = none) :
    ensureReady Globals.initial env = .error .EmptyCorpus := by
  have hrows : (dropnaReset raw c).rows = [] := by
    unfold dropnaReset
    simp only []
    rw [List.filter_eq_nil]
    intro row hrow
    rw [hnull row hrow]
    simp
  have htexts : colTexts (dropnaReset raw c) c = [] := by
    unfold colTexts
    rw [hrows]
    rfl
  have hfit : fitVectorizer env [] = .error .EmptyCorpus := by
    unfold fitVectorizer
    rw [if_pos buildVocabulary_nil]
  have hbuild : buildFromCsv env = .error .EmptyCorpus := by
    unfold buildFromCsv
    rw [hcsv]
    simp only [hdet, htexts, hfit]
  unfold ensureReady
  rw [if_neg (by rw [initial_not_ready]; exact Bool.false_ne_true)]
  rcases hnocache with hn | hn
  · rw [hn]
    cases hd : env.fs.data? <;> simp only [hbuild]
  · rw [hn]
    cases hv : env.fs.vect? <;> simp only [hbuild]

/-- An all-null-text corpus exercising claim C3. -/
def nullDf : DataFrame where
  cols := [("text", true)]
  rows := [[("text", none)], [("text", none)]]

theorem claim_C3_all_null_empty_corpus_witness :
    ensureReady Globals.initial (mkEnv (some nullDf) ⟨none, none⟩ true true) =
      .error .EmptyCorpus :=
  claim_C3_all_null_empty_corpus (mkEnv (some nullDf) ⟨none, none⟩ true true)
    nullDf "text" (Or.inl rfl) rfl (by with_unfolding_all rfl) (by decide)

/-- Claim C4: when both cache artifacts exist, the cached-load path keeps
the cached model (its vocabulary is never re-derived from the loaded
corpus) and derives the weighted matrix by transforming the corpus text
through that cached model, without refitting. -/
theorem claim_C4_cached_load_no_refit (env : Env) (vec : TfidfVectorizer)
    (df : DataFrame) (g' : Globals) (fs : CacheFS)
    (hv : env.fs.vect? = some vec) (hd : env.fs.data? = some df)
    (h : ensureReady Globals.initial env = .ok (g', fs)) :
    g'.vectorizer? = some vec ∧
    (∀ v', g'.vectorizer? = some v' → v'.vocabulary = vec.vocabulary) ∧
    (∀ tc, g'.textCol? = some tc →
      detectTextColumn df = .ok tc ∧
      g'.matrix? = some ((colTexts df tc).map vec.weight)) ∧
    g'.textCol?.isSome = true := by
  unfold ensureReady at h
  rw [if_neg (by rw [initial_not_ready]; exact Bool.false_ne_true), hv, hd] at h
  simp only [] at h
  split at h
  next e hdet => cases h
  next tc hdet =>
    simp only [Except.ok.injEq, Prod.mk.injEq] at h
    obtain ⟨hg, -⟩ := h
    subst hg
    refine ⟨rfl, ?_, ?_, rfl⟩
    · intro v' hv'
      cases hv'
      rfl
    · intro tc' htc'
      cases htc'
      exact ⟨hdet, rfl⟩

theorem claim_C4_cached_load_no_refit_witness :
    (Globals.mk (some exVec) (some exDf)
        (some ((colTexts exDf "text").map exVec.weight)) (some "text")).vectorizer? =
      some exVec ∧
    (∀ v', (Globals.mk (some exVec) (some exDf)
        (some ((colTexts exDf "text").map exVec.weight)) (some "text")).vectorizer? =
        some v' → v'.vocabulary = exVec.vocabulary) ∧
    (∀ tc, (Globals.mk (some exVec) (some exDf)
        (some ((colTexts exDf "text").map exVec.weight)) (some "text")).textCol? =
        some tc →
      detectTextColumn exDf = .ok tc ∧
      (Globals.mk (some exVec) (some exDf)
        (some ((colTexts exDf "text").map exVec.weight)) (some "text")).matrix? =
        some ((colTexts exDf tc).map exVec.weight)) ∧
    (Globals.mk (some exVec) (some exDf)
        (some ((colTexts exDf "text").map exVec.weight)) (some "text")).textCol?.isSome =
      true :=
  claim_C4_cached_load_no_refit
    (mkEnv none ⟨some exVec, some exDf⟩ true true) exVec exDf _ _
    rfl rfl (by with_unfolding_all rfl)

/-! ### Claims C9, C5, C6 -/

theorem Env_upd_csv (env : Env) (b1 b2 : Bool) :
    ({ env with dumpVecOk := b1, dumpDataOk := b2 } : Env).csv? = env.csv? := rfl

theorem fitVectorizer_upd (env : Env) (b1 b2 : Bool) (texts : List String) :
    fitVectorizer { env with dumpVecOk := b1, dumpDataOk := b2 } texts =
      fitVectorizer env texts := rfl

/-- Claim C9: cache persistence is best-effort and non-fatal — for every
build from the raw source, whatever the outcome of the two cache writes,
the build still completes and returns the same built state (the write
failure is swallowed). -/
theorem claim_C9_cache_write_best_effort (env : Env) (st : RecState) (fs : CacheFS)
    (b1 b2 : Bool) (h : buildFromCsv env = .ok (st, fs)) :
    ∃ fs2, buildFromCsv { env with dumpVecOk := b1, dumpDataOk := b2 } = .ok (st, fs2) := by
  unfold buildFromCsv at h ⊢
  rw [Env_upd_csv]
  simp only [fitVectorizer_upd]
  cases hcsv : env.csv? with
  | none => simp only [hcsv] at h; exact Except.noConfusion h
  | some raw =>
    simp only [hcsv] at h ⊢
    cases hdet : detectTextColumn raw with
    | error e => simp only [hdet] at h; exact Except.noConfusion h
    | ok tc =>
      simp only [hdet] at h ⊢
      cases hfit : fitVectorizer env (colTexts (dropnaReset raw tc) tc) with
      | error e => simp only [hfit] at h; exact Except.noConfusion h
      | ok vec =>
        simp only [hfit] at h ⊢
        simp only [Except.ok.injEq, Prod.mk.injEq] at h
        obtain ⟨hst, -⟩ := h
        exact ⟨_, by rw [hst]⟩

def c9df : DataFrame := dropnaReset exDf "text"
def c9voc : List String := buildVocabulary (colTexts c9df "text")
def c9vec : TfidfVectorizer :=
  ⟨c9voc, indWeight c9voc, fun s => indWeight_len c9voc s, fun s => indWeight_norm c9voc s⟩
def c9st : RecState := ⟨c9df, c9vec, (colTexts c9df "text").map c9vec.weight, "text"⟩
def c9fs : CacheFS := ⟨some c9vec, some c9df⟩

theorem claim_C9_cache_write_best_effort_witness :
    ∃ fs2, buildFromCsv
      { (mkEnv (some exDf) ⟨none, none⟩ true true) with
          dumpVecOk := false, dumpDataOk := false } = .ok (c9st, fs2) :=
  claim_C9_cache_write_best_effort (mkEnv (some exDf) ⟨none, none⟩ true true)
    c9st c9fs false false (by with_unfolding_all rfl)

/-- Claim C5: building from the raw tabular source and then, in a fresh
process, reloading via the cache artifacts the build persisted yields —
without rebuilding — the same corpus (hence the same document count) and
the same text column selection as the original build. -/
theorem claim_C5_round_trip (env : Env) (st1 : RecState) (fs1 : CacheFS)
    (hd1 : env.dumpVecOk = true) (hd2 : env.dumpDataOk = true)
    (hb : buildFromCsv env = .ok (st1, fs1))
    (env2 : Env) (hfs : env2.fs = fs1) :
    ensureReady Globals.initial env2 =
      .ok (Globals.mk (some st1.vectorizer) (some st1.df)
        (some ((colTexts st1.df st1.textCol).map st1.vectorizer.weight))
        (some st1.textCol), env2.fs) := by
  unfold buildFromCsv at hb
  cases hcsv : env.csv? with
  | none => simp only [hcsv] at hb; exact Except.noConfusion hb
  | some raw =>
    simp only [hcsv] at hb
    cases hdet : detectTextColumn raw with
    | error e => simp only [hdet] at hb; exact Except.noConfusion hb
    | ok tc =>
      simp only [hdet] at hb
      cases hfit : fitVectorizer env (colTexts (dropnaReset raw tc) tc) with
      | error e => simp only [hfit] at hb; exact Except.noConfusion hb
      | ok vec =>
        simp only [hfit, hd1, hd2] at hb
        simp only [Except.ok.injEq, Prod.mk.injEq] at hb
        obtain ⟨hst, hfs1⟩ := hb
        have hdf : st1.df = dropnaReset raw tc := by rw [← hst]
        have hvec : st1.vectorizer = vec := by rw [← hst]
        have htc : st1.textCol = tc := by rw [← hst]
        have hdet2 : detectTextColumn st1.df = .ok st1.textCol := by
          rw [hdf, htc,
            detectTextColumn_cols_congr (dropnaReset raw tc) raw (dropnaReset_cols raw tc)]
          exact hdet
        have hvect2 : env2.fs.vect? = some st1.vectorizer := by
          rw [hfs, ← hfs1, hvec]
          simp
        have hdata2 : env2.fs.data? = some st1.df := by
          rw [hfs, ← hfs1, hdf]
          simp
        unfold ensureReady
        rw [if_neg (by rw [initial_not_ready]; exact Bool.false_ne_true), hvect2, hdata2]
        simp only [hdet2]

def c5env2 : Env := mkEnv none c9fs true true

theorem claim_C5_round_trip_witness :
    ensureReady Globals.initial c5env2 =
      .ok (Globals.mk (some c9st.vectorizer) (some c9st.df)
        (some ((colTexts c9st.df c9st.textCol).map c9st.vectorizer.weight))
        (some c9st.textCol), c5env2.fs) :=
  claim_C5_round_trip (mkEnv (some exDf) ⟨none, none⟩ true true) c9st c9fs
    rfl rfl (by with_unfolding_all rfl) c5env2 rfl

/-- Claim C6: `query` is deterministic and does not disturb the ready
index: a successful call fixes the module globals, and a repeated call
with the same `(text, k)` against those globals — under any environment —
returns the identical output and the identical globals. -/
theorem claim_C6_query_deterministic (g : Globals) (env : Env) (q : String) (k : Int)
    (out : List ResultItem) (g' : Globals) (fs : CacheFS)
    (h : recommend_topk g env q k = .ok (out, g', fs)) (env2 : Env) :
    recommend_topk g' env2 q k = .ok (out, g', env2.fs) := by
  unfold recommend_topk at h ⊢
  cases hens : ensureReady g env with
  | error e => simp only [hens] at h; exact Except.noConfusion h
  | ok p =>
    obtain ⟨g1, fs1⟩ := p
    simp only [hens] at h
    cases hst : g1.toState? with
    | none => simp only [hst] at h; exact Except.noConfusion h
    | some st =>
      simp only [hst, Except.ok.injEq, Prod.mk.injEq] at h
      obtain ⟨hout, hg, -⟩ := h
      subst hg
      obtain ⟨hv, hd, hm, -⟩ := toState?_fields hst
      have hready : (g1.vectorizer?.isSome && g1.df?.isSome && g1.matrix?.isSome) = true := by
        rw [hv, hd, hm]
        rfl
      unfold ensureReady
      rw [if_pos hready]
      simp only [hst]
      rw [hout]

def exG : Globals := ⟨some exVec, some exDf, some [[1], [0]], some "text"⟩

def exOut : List ResultItem :=
  [⟨1, 1, "cat", [("id", some "0")]⟩, ⟨2, 0, "dog", [("id", some "1")]⟩]

theorem claim_C6_query_deterministic_witness :
    recommend_topk exG (mkEnv none ⟨none, none⟩ true true) "cat" 2 =
      .ok (exOut, exG, (mkEnv none ⟨none, none⟩ true true).fs) :=
  claim_C6_query_deterministic exG (mkEnv none ⟨none, none⟩ false false) "cat" 2
    exOut exG ⟨none, none⟩ (by with_unfolding_all rfl)
    (mkEnv none ⟨none, none⟩ true true)

/-! ### Claim C8: self-similarity -/

/-- Two documents with identical text and an `id` passthrough column:
the corpus that breaks the claim as stated. -/
def c8df : DataFrame where
  cols := [("id", false), ("text", true)]
  rows := [[("id", some "0"), ("text", some "cat")],
           [("id", some "1"), ("text", some "cat")]]

def c8st : RecState where
  df := c8df
  vectorizer := exVec
  matrix := [[1], [1]]
  textCol := "text"

/-- Counterexample to claim C8 as stated: in the two-document corpus in
which both documents' text is `"cat"`, querying with the text of document
0 (all well-formedness hypotheses of the claim hold, `k = 2 ≥ 1`) puts
document 1 — not document 0 — at rank 1: both documents tie at the
maximal score and the argsort tie order places the later row first after
reversal.  So "yields document d at rank 1" fails for `d = 0`. -/
theorem claim_C8_counterexample :
    c8st.matrix = (docTexts c8st).map c8st.vectorizer.weight ∧
    0 < (docTexts c8st).length ∧
    "cat" = (docTexts c8st).getD 0 "" ∧
    (1 : Int) ≤ 2 ∧
    ¬((recommendCore c8st "cat" 2).getD 0 dfltItem =
        mkItem c8st (simsOf c8st "cat") 1 0) := by
  refine ⟨by with_unfolding_all decide, by decide, by with_unfolding_all decide,
    by decide, by with_unfolding_all decide⟩

/-- Claim C8 (amended): for every non-empty corpus whose weighted matrix
is the model's transform of its own text, and every document `d`,
querying with the text of `d` (any `k ≥ 1`) yields at rank 1 a record
whose score equals the rounded self-similarity score of `d`, which is the
maximum rounded score over all documents; and whenever `d`'s similarity
is strictly greater than every other document's, the rank-1 record is
document `d` itself.  (The counterexample forces the strictness proviso:
a document whose text ties with another need not itself be at rank 1.) -/
theorem claim_C8_self_similarity (st : RecState) (q : String) (k : Int) (d : Nat)
    (hmat : st.matrix = (docTexts st).map st.vectorizer.weight)
    (hd : d < (docTexts st).length)
    (hq : q = (docTexts st).getD d "")
    (hk : 1 ≤ k) :
    ((recommendCore st q k).getD 0 dfltItem).score = round6 (sAt (simsOf st q) d) ∧
    (∀ j, j < (simsOf st q).length →
      round6 (sAt (simsOf st q) j) ≤ ((recommendCore st q k).getD 0 dfltItem).score) ∧
    ((∀ j, j < (simsOf st q).length → j ≠ d → sAt (simsOf st q) j < sAt (simsOf st q) d) →
      (recommendCore st q k).getD 0 dfltItem = mkItem st (simsOf st q) 1 d) := by
  subst hq
  set texts := docTexts st with htexts
  set q := texts.getD d ""
  have hsn : (simsOf st q).length = texts.length := by
    simp [simsOf, hmat]
  have hsAt : ∀ j, j < texts.length →
      sAt (simsOf st q) j =
        dotQ (st.vectorizer.weight q) (st.vectorizer.weight (texts.getD j "")) := by
    intro j hj
    have h1 : j < ((texts.map st.vectorizer.weight).map
        (fun row => dotQ (st.vectorizer.weight q) row)).length := by
      simp [hj]
    simp only [sAt, simsOf, hmat]
    rw [List.getD_eq_getElem _ _ h1, List.getElem_map, List.getElem_map,
      List.getD_eq_getElem _ _ hj]
  have hmax : ∀ j, j < (simsOf st q).length →
      sAt (simsOf st q) j ≤ sAt (simsOf st q) d := by
    intro j hj
    have hj' : j < texts.length := by rwa [hsn] at hj
    rw [hsAt j hj', hsAt d hd]
    have hwq : st.vectorizer.weight q = st.vectorizer.weight (texts.getD d "") := rfl
    rw [hwq]
    set w := st.vectorizer.weight (texts.getD d "")
    set wj := st.vectorizer.weight (texts.getD j "")
    rcases st.vectorizer.weight_norm (texts.getD d "") with hw | hw
    · rcases st.vectorizer.weight_norm (texts.getD j "") with hwj | hwj
      · have h2 := two_mul_dotQ_le w wj
        rw [hw, hwj] at h2
        rw [hw]
        linarith
      · have h2 := two_mul_dotQ_le w wj
        rw [hw, hwj] at h2
        rw [hw]
        linarith
    · rw [dotQ_self_eq_zero w hw wj, hw]
  have hnpos : 0 < st.matrix.length := by
    rw [hmat]
    simp only [List.length_map]
    omega
  have hlenpos : 0 < (recommendCore st q k).length := by
    rw [recommendCore_length]
    unfold pyStart
    rw [if_pos (by omega : -k < 0)]
    rcases max_cases ((st.matrix.length : Int) + -k) 0 with ⟨h1, _⟩ | ⟨h1, _⟩ <;>
      rw [h1] <;> omega
  have hitem := recommendCore_item st q k hlenpos
  set s := simsOf st q with hs
  set t0 := (argsortAsc s).getD (s.length - 1 - 0) 0 with ht0
  have hslen : 0 < s.length := by rw [hsn]; omega
  have hpos : s.length - 1 - 0 < (argsortAsc s).length := by
    rw [argsort_length]; omega
  have hmem : t0 < s.length := by
    have hin : t0 ∈ argsortAsc s := by
      rw [ht0, List.getD_eq_getElem _ _ hpos]
      exact List.getElem_mem hpos
    exact (mem_argsort s t0).mp hin
  have hd' : d < s.length := by rw [hsn]; exact hd
  have hA : sAt s d ≤ sAt s t0 := by
    rcases argsort_surj s hd' with ⟨p, hp, hpd⟩
    have hmono := argsort_at_mono s (p := p) (q := s.length - 1 - 0)
      (by rw [argsort_length] at hp; omega) hpos
    rw [hpd] at hmono
    exact hmono
  have hB : sAt s t0 ≤ sAt s d := hmax t0 hmem
  have hEq : sAt s t0 = sAt s d := le_antisymm hB hA
  have hscore : ((recommendCore st q k).getD 0 dfltItem).score = round6 (sAt s d) := by
    rw [hitem]
    simp only [mkItem]
    rw [← hEq]
  refine ⟨hscore, ?_, ?_⟩
  · intro j hj
    rw [hscore]
    exact round6_mono (hmax j hj)
  · intro hstrict
    by_cases hdt : t0 = d
    · rw [hitem, hdt]
    · exfalso
      have hlt := hstrict t0 hmem hdt
      have := hA
      linarith

theorem claim_C8_self_similarity_witness :
    ((recommendCore exSt "cat" 1).getD 0 dfltItem).score =
      round6 (sAt (simsOf exSt "cat") 0) ∧
    round6 (sAt (simsOf exSt "cat") 1) ≤
      ((recommendCore exSt "cat" 1).getD 0 dfltItem).score ∧
    (recommendCore exSt "cat" 1).getD 0 dfltItem = mkItem exSt (simsOf exSt "cat") 1 0 := by
  obtain ⟨h1, h2, h3⟩ := claim_C8_self_similarity exSt "cat" 1 0
    (by with_unfolding_all decide) (by decide) (by with_unfolding_all decide) (by decide)
  refine ⟨h1, h2 1 (by with_unfolding_all decide), h3 ?_⟩
  intro j hj hne
  have hlen : (simsOf exSt "cat").length = 2 := by with_unfolding_all rfl
  rw [hlen] at hj
  match j, hne with
  | 1, _ => with_unfolding_all decide
